import Mathlib

/-!
# Verification of the yt-summarize pipeline core

Shallow embedding of the chunking, parsing, reassembly and rendering logic of
the `yt-summarize` repository (`src/summarizer.py`, `src/transcription.py`,
`src/output_generator.py`), together with proofs of the specified properties.

Python strings are modelled as `String` / `List Char`; all string operations
used by the code (`re.split`, `str.split`, `str.strip`, `str.lower`,
`str.join`, `str.replace`, substring tests) are given explicit executable
definitions over `List Char`, faithful to Python semantics on the ASCII
inputs the properties are about (Python additionally treats some non-ASCII
code points as whitespace/lowercase-able, which none of the claims exercise).

Calls to the OpenAI chat-completion endpoint are modelled by an `Oracle`:
a function from (model, prompt pair, max-token bound) to either a generated
string or an error message, mirroring the fact that the code treats the
model as an opaque, possibly failing text-generation primitive.
-/

namespace YtSummarize

/-! ## Python string primitives over `List Char` -/

/-- ASCII decimal digit, `\d` of the Python regexes on the inputs considered. -/
def isDigit (c : Char) : Bool := '0' ≤ c && c ≤ '9'

/-- Python `\s` / `str.strip` whitespace (ASCII part). -/
def isPyWs (c : Char) : Bool :=
  c = ' ' || c = '\t' || c = '\n' || c = '\r' || c = '\x0c' || c = '\x0b'

/-- Leading whitespace run of a character list. -/
def takeWs : List Char → List Char
  | [] => []
  | c :: cs => if isPyWs c then c :: takeWs cs else []

/-- Drop the leading whitespace run of a character list. -/
def dropWs : List Char → List Char
  | [] => []
  | c :: cs => if isPyWs c then dropWs cs else c :: cs

/-- Python `str.strip` on a character list: remove leading and trailing
whitespace. -/
def pyStrip (l : List Char) : List Char :=
  dropWs ((dropWs l.reverse).reverse)

/-- Python `sep.join(xs)` (here `sep` and the parts are character lists). -/
def joinSep (sep : List Char) : List (List Char) → List Char
  | [] => []
  | [x] => x
  | x :: xs => x ++ sep ++ joinSep sep xs

/-- Python `s.split(sep)` for a one-character separator: `''.split` is `['']`,
separators are not grouped, empty parts are kept. -/
def pySplitChar (sep : Char) : List Char → List (List Char)
  | [] => [[]]
  | c :: cs =>
    if c = sep then [] :: pySplitChar sep cs
    else
      match pySplitChar sep cs with
      | [] => [[c]]
      | r :: rs => (c :: r) :: rs

/-- Python `s.split()` with no argument: split on whitespace runs, dropping
empty parts. -/
def pyWsSplit : List Char → List (List Char)
  | [] => []
  | c :: cs =>
    if isPyWs c then pyWsSplit cs
    else
      match pyWsSplit cs with
      | [] => [[c]]
      | r :: rs =>
        match cs with
        | [] => [[c]]
        | d :: _ => if isPyWs d then [c] :: r :: rs else (c :: r) :: rs

/-- Test `startsWith pat l`: `pat` is an initial segment of `l`. -/
def startsWith : List Char → List Char → Bool
  | [], _ => true
  | _ :: _, [] => false
  | a :: as, b :: bs => a = b && startsWith as bs

/-- Python `pat in s` substring test. -/
def subList (pat : List Char) : List Char → Bool
  | [] => pat.isEmpty
  | c :: cs => startsWith pat (c :: cs) || subList pat cs

/-- Worker for Python `s.replace(pat, rep)` with a non-empty pattern
(left-to-right, non-overlapping): `skip` counts characters of an already
matched pattern occurrence that remain to be consumed. -/
def replaceSubGo (pat rep : List Char) : Nat → List Char → List Char
  | _, [] => []
  | skip + 1, _ :: cs => replaceSubGo pat rep skip cs
  | 0, c :: cs =>
    if startsWith pat (c :: cs) then rep ++ replaceSubGo pat rep (pat.length - 1) cs
    else c :: replaceSubGo pat rep 0 cs

/-- Python `s.replace(pat, rep)` for a non-empty pattern. Used only for
`str.format`-style placeholder substitution where the pattern is the literal
placeholder. -/
def replaceSub (pat rep : List Char) (l : List Char) : List Char :=
  replaceSubGo pat rep 0 l

/-! ## Chunk splitter (`summarizer.py`, `_split_transcript_into_chunks`) -/

/-- Sentence-ending punctuation of the splitting regex `(?<=[.!?])\s+`. -/
def isSentEnd (c : Char) : Bool := c = '.' || c = '!' || c = '?'

/-- Embedding of `re.split(r'(?<=[.!?])\s+', transcript)` on a character list: cut at every
maximal whitespace run that immediately follows `.`, `!` or `?`, dropping the
whitespace. One structural pass: `acc` holds the current sentence reversed;
`inSep` records that the scanner is inside a separator whitespace run (so
further whitespace extends the separator instead of starting a sentence). -/
def splitSentencesGo (inSep : Bool) (acc : List Char) : List Char → List (List Char)
  | [] => [acc.reverse]
  | c :: cs =>
    if inSep then
      if isPyWs c then splitSentencesGo true acc cs
      else splitSentencesGo false [c] cs
    else
      match acc with
      | [] => splitSentencesGo false [c] cs
      | p :: _ =>
        if isSentEnd p && isPyWs c then
          acc.reverse :: splitSentencesGo true [] cs
        else
          splitSentencesGo false (c :: acc) cs

/-- The sentence list of a transcript, as the Python code computes it. -/
def splitSentences (l : List Char) : List (List Char) := splitSentencesGo false [] l

/-- The accumulation loop of `_split_transcript_into_chunks`: greedily pack
sentences into chunks of at most `maxChunkChars` summed sentence characters,
joining each chunk with single spaces; flush the final partial chunk. -/
def chunkLoop (maxChunkChars : Nat) :
    List (List Char) → List (List Char) → Nat → List (List Char) → List (List Char)
  | chunks, currentChunk, _, [] =>
    if currentChunk.isEmpty then chunks else chunks ++ [joinSep [' '] currentChunk]
  | chunks, currentChunk, currentLength, sentence :: rest =>
    if currentLength + sentence.length > maxChunkChars && !currentChunk.isEmpty then
      chunkLoop maxChunkChars (chunks ++ [joinSep [' '] currentChunk]) [sentence]
        sentence.length rest
    else
      chunkLoop maxChunkChars chunks (currentChunk ++ [sentence])
        (currentLength + sentence.length) rest

/-- Embedding of `_split_transcript_into_chunks(transcript, max_chunk_chars)`
(`summarizer.py` lines 44-64). -/
def splitTranscriptIntoChunks (transcript : String) (maxChunkChars : Nat := 40000) :
    List String :=
  (chunkLoop maxChunkChars [] [] 0 (splitSentences transcript.data)).map List.asString

/-! ## String-level wrappers -/

/-- Python `str.lower` (ASCII). -/
def pyLower (l : List Char) : List Char := l.map Char.toLower

/-- Python `pat in s` on `String`s. -/
def strContains (s pat : String) : Bool := subList pat.data s.data

/-- Python `str.lower` on `String`s. -/
def strLower (s : String) : String := (pyLower s.data).asString

/-- Python `str.strip` on `String`s. -/
def strStrip (s : String) : String := (pyStrip s.data).asString

/-- Python `sep.join(xs)` on `String`s. -/
def strJoin (sep : String) (xs : List String) : String :=
  (joinSep sep.data (xs.map String.data)).asString

/-- Embedding of `prompts["user"].format(transcript=transcript)`: substitute the
placeholder of the fixed prompt templates. -/
def formatPrompt (template transcript : String) : String :=
  (replaceSub "{transcript}".data transcript.data template.data).asString

/-- Number of whitespace-delimited words, Python `len(s.split())`. -/
def wordCount (s : String) : Nat := (pyWsSplit s.data).length

/-- Python `x or d` for an optional integer (`None` and `0` are falsy). -/
def pyOrNat (x : Option Nat) (d : Nat) : Nat :=
  match x with
  | none => d
  | some n => if n = 0 then d else n

/-! ## Section parser (`summarizer.py`, `_parse_sections`, lines 235-274) -/

/-- Assignment `sections[current_section] = v` on an insertion-ordered dict. -/
def dictSet (d : List (String × List Char)) (k : String) (v : List Char) :
    List (String × List Char) :=
  if d.any (fun p => p.1 = k) then d.map (fun p => if p.1 = k then (k, v) else p)
  else d ++ [(k, v)]

/-- The keyword test `any(keyword in line.lower() for keyword in kws)`
applied to an already-lowercased line. -/
def hasKeyword (low : List Char) (kws : List String) : Bool :=
  kws.any (fun k => subList k.data low)

/-- The header classification chain of `_parse_sections`: which section a
(stripped) line opens, in the fixed priority order of the `elif` chain. -/
def classifyLine (l : List Char) : Option String :=
  let low := pyLower l
  if hasKeyword low ["overview", "introduction"] then some "overview"
  else if hasKeyword low ["key points", "main ideas", "main points"] then some "key_points"
  else if hasKeyword low ["details", "examples"] then some "details"
  else if hasKeyword low ["conclusion", "takeaway", "summary"] then some "conclusion"
  else none

/-- One iteration of the `_parse_sections` line loop. State:
(sections dict, current section name, accumulated content lines). -/
def sectionsStep (st : List (String × List Char) × String × List (List Char))
    (line : List Char) : List (String × List Char) × String × List (List Char) :=
  let l := pyStrip line
  if l = [] then st
  else
    match classifyLine l with
    | some sec =>
      ((if st.2.2 ≠ [] then dictSet st.1 st.2.1 (joinSep ['\n'] st.2.2) else st.1), sec, [])
    | none => (st.1, st.2.1, st.2.2 ++ [l])

/-- Embedding of `_parse_sections(summary)` on a character list. -/
def parseSectionsL (summary : List Char) : List (String × List Char) :=
  let st := (pySplitChar '\n' summary).foldl sectionsStep ([], "overview", [])
  if st.2.2 ≠ [] then dictSet st.1 st.2.1 (joinSep ['\n'] st.2.2) else st.1

/-- Embedding of `_parse_sections(summary)` (`summarizer.py` lines 235-274). -/
def parseSections (summary : String) : List (String × String) :=
  (parseSectionsL summary.data).map (fun p => (p.1, p.2.asString))

/-! ## Summarization orchestrator (`summarizer.py`, lines 21-233) -/

/-- The two chat models the summarizer uses. -/
inductive Model where
  | gpt4TurboPreview
  | gpt35Turbo
deriving DecidableEq

/-- A system/user prompt pair sent to the chat endpoint. -/
structure Prompt where
  system : String
  user : String
deriving DecidableEq

/-- The opaque text-generation primitive: given model, prompt pair and
max-token bound (`None` = unbounded), either a generated summary or the
string of the raised exception. Temperature is the constant 0.7 in every
call and is omitted. -/
def Oracle := Model → Prompt → Option Nat → Except String String

deriving instance DecidableEq for Except

/-- The result dict of the summarizer (`note`/`model` keys are only present
on some paths, modelled as `Option` fields defaulting to `none`). -/
structure SummaryResult where
  summary : String
  style : String
  word_count : Nat
  sections : List (String × String)
  note : Option String := none
  model : Option String := none
deriving DecidableEq

/-- Embedding of `_get_prompts(style)` (`summarizer.py` lines 119-144): the fixed prompt
table; unknown styles default to the "detailed" prompts. -/
def getPrompts (style : String) : Prompt :=
  if style = "brief" then
    { system := "You are a concise summarizer. Create brief, clear summaries."
      user := "Summarize this transcript in 2-3 paragraphs, focusing on the key points:\n\n{transcript}" }
  else if style = "bullet" then
    { system := "You are a summarizer who creates clear bullet-point summaries."
      user := "Create a bullet-point summary of the main ideas in this transcript:\n\n{transcript}" }
  else
    { system := "You are an expert summarizer. Create comprehensive, well-structured summaries."
      user := "Create a detailed summary of this transcript with:\n1. A brief overview (1-2 paragraphs)\n2. Key points and main ideas (bullet points)\n3. Important details or examples mentioned\n4. Conclusion or takeaways\n\nThis is a transcript of a video, so when referring to the source material, speak of it as a video rather than a transcript.\n\nTranscript:\n{transcript}" }

/-- Embedding of `_simple_summary_with_fallback` (`summarizer.py` lines 146-172): one
attempt on `gpt-3.5-turbo`; failure is re-raised with a fixed prefix. -/
def simpleSummaryWithFallback (o : Oracle) (transcript : String) (prompts : Prompt)
    (maxLength : Option Nat) : Except String SummaryResult :=
  match o Model.gpt35Turbo
      { system := prompts.system, user := formatPrompt prompts.user transcript }
      (some (pyOrNat maxLength 1000)) with
  | .ok summary =>
    .ok { summary := summary, style := "simple", word_count := wordCount summary
          sections := [("main", summary)], model := some "gpt-3.5-turbo" }
  | .error e => .error ("Fallback summarization also failed: " ++ e)

/-- Embedding of `_simple_summary` (`summarizer.py` lines 174-202): attempt on
`gpt-4-turbo-preview`; on an error whose text indicates a token/context
problem retry once on the fallback model, otherwise re-raise. -/
def simpleSummary (o : Oracle) (transcript : String) (prompts : Prompt)
    (maxLength : Option Nat) : Except String SummaryResult :=
  match o Model.gpt4TurboPreview
      { system := prompts.system, user := formatPrompt prompts.user transcript }
      (some (pyOrNat maxLength 1000)) with
  | .ok summary =>
    .ok { summary := summary, style := "simple", word_count := wordCount summary
          sections := [("main", summary)] }
  | .error e =>
    if strContains e "maximum context length" || strContains (strLower e) "token" then
      simpleSummaryWithFallback o transcript prompts maxLength
    else .error ("Summarization failed: " ++ e)

/-- Embedding of `_detailed_summary` (`summarizer.py` lines 204-233): like
`_simple_summary` but with the max-token bound passed through verbatim,
style `"detailed"` and the section parser applied to the output. -/
def detailedSummary (o : Oracle) (transcript : String) (prompts : Prompt)
    (maxLength : Option Nat) : Except String SummaryResult :=
  match o Model.gpt4TurboPreview
      { system := prompts.system, user := formatPrompt prompts.user transcript }
      maxLength with
  | .ok summary =>
    .ok { summary := summary, style := "detailed", word_count := wordCount summary
          sections := parseSections summary }
  | .error e =>
    if strContains e "maximum context length" || strContains (strLower e) "token" then
      simpleSummaryWithFallback o transcript prompts maxLength
    else .error ("Summarization failed: " ++ e)

/-- The per-chunk primary attempt of `_summarize_chunked_transcript`
(`summarizer.py` lines 77-82): for the "detailed" style each chunk is
summarized with the "brief" prompts and a 500-token cap; for every other
style with the originally requested prompts and a 300-token cap. -/
def chunkPrimaryAttempt (o : Oracle) (style : String) (prompts : Prompt)
    (chunk : String) : Except String SummaryResult :=
  if style = "detailed" then simpleSummary o chunk (getPrompts "brief") (some 500)
  else simpleSummary o chunk prompts (some 300)

/-- The chunk loop of `_summarize_chunked_transcript` (lines 74-92): primary
attempt, then the fallback model, then a placeholder naming the chunk;
`i` is the 0-based chunk index. -/
def summarizeChunks (o : Oracle) (style : String) (prompts : Prompt) :
    List String → Nat → List String
  | [], _ => []
  | chunk :: rest, i =>
    let entry :=
      match chunkPrimaryAttempt o style prompts chunk with
      | .ok r => r.summary
      | .error _ =>
        match simpleSummaryWithFallback o chunk prompts (some 300) with
        | .ok r => r.summary
        | .error _ => "[Chunk " ++ toString (i + 1) ++ " summary failed]"
    entry :: summarizeChunks o style prompts rest (i + 1)

/-- The final recombination call of `_summarize_chunked_transcript`
(lines 97-107): re-summarize the joined chunk summaries with a synthesis
prompt in the originally requested style. -/
def finalCombine (o : Oracle) (style combined : String) : Except String SummaryResult :=
  let finalPrompt : Prompt :=
    { system := "You are an expert at synthesizing information. Create a cohesive summary from these section summaries."
      user := "Create a " ++ style ++ " summary by combining these section summaries into a cohesive whole:\n\n" ++ combined }
  if style = "detailed" then detailedSummary o combined finalPrompt (some 2000)
  else simpleSummary o combined finalPrompt (some 1000)

/-- Embedding of `_summarize_chunked_transcript` (`summarizer.py` lines 66-117). Total:
every failure path is handled inside. -/
def summarizeChunkedTranscript (o : Oracle) (transcript style : String)
    (prompts : Prompt) : SummaryResult :=
  let chunks := splitTranscriptIntoChunks transcript 40000
  let chunkSummaries := summarizeChunks o style prompts chunks 0
  let combined := strJoin "\n\n" chunkSummaries
  match finalCombine o style combined with
  | .ok r => r
  | .error _ =>
    { summary := combined, style := style, word_count := wordCount combined
      sections := [("main", combined)]
      note := some "This is a concatenation of chunk summaries due to length constraints." }

/-- Embedding of `summarize_transcript` (`summarizer.py` lines 21-42): reject empty input,
estimate tokens as `len // 4`, chunk when the estimate exceeds
`max_chunk_tokens = 10000`, otherwise single-shot in the requested style. -/
def summarizeTranscript (o : Oracle) (transcript : String) (style : String)
    (maxLength : Option Nat) : Except String SummaryResult :=
  if transcript = "" then .error "No transcript provided for summarization"
  else
    let estimatedTokens := transcript.length / 4
    let prompts := getPrompts style
    if estimatedTokens > 10000 then
      .ok (summarizeChunkedTranscript o transcript style prompts)
    else if style = "detailed" then detailedSummary o transcript prompts maxLength
    else simpleSummary o transcript prompts maxLength

/-! ## Chapter parser (`summarizer.py`, `_parse_chapters`, lines 310-336) -/

/-- A parsed chapter entry. -/
structure Chapter where
  timestamp : String
  title : String
  description : String
deriving DecidableEq

/-- Matcher for the tail `\d{2}:\d{2}\](.+)` of the chapter regex, applied
after the first field and its colon have been consumed. Returns the matched
`MM:SS` characters and the `(.+)` remainder (which must be non-empty; the
lines this is applied to never contain a newline, so `.` is any character). -/
def matchTail : List Char → Option (List Char × List Char)
  | m1 :: m2 :: ':' :: s1 :: s2 :: ']' :: rest =>
    if isDigit m1 && isDigit m2 && isDigit s1 && isDigit s2 && !rest.isEmpty then
      some ([m1, m2, ':', s1, s2], rest)
    else none
  | _ => none

/-- The greedy two-digit-hour alternative of `\[(\d{1,2}:\d{2}:\d{2})\](.+)`. -/
def matchTwoDigit (l : List Char) : Option (List Char × List Char) :=
  match l with
  | '[' :: d1 :: d2 :: ':' :: tail =>
    if isDigit d1 && isDigit d2 then
      (matchTail tail).map (fun p => (d1 :: d2 :: ':' :: p.1, p.2))
    else none
  | _ => none

/-- The one-digit-hour alternative, tried after the two-digit one fails
(regex backtracking on `\d{1,2}`). -/
def matchOneDigit (l : List Char) : Option (List Char × List Char) :=
  match l with
  | '[' :: d1 :: ':' :: tail =>
    if isDigit d1 then (matchTail tail).map (fun p => (d1 :: ':' :: p.1, p.2))
    else none
  | _ => none

/-- Embedding of `re.match(r'\[(\d{1,2}:\d{2}:\d{2})\](.+)', line)`: group 1 (the
timestamp) and group 2 (the rest), or `none` when the line does not match. -/
def matchTimestampLine (l : List Char) : Option (List Char × List Char) :=
  match matchTwoDigit l with
  | some res => some res
  | none => matchOneDigit l

/-- One iteration of the `_parse_chapters` line loop. State:
(emitted chapters, currently open chapter). -/
def chapterStep (st : List Chapter × Option Chapter) (line : List Char) :
    List Chapter × Option Chapter :=
  let l := pyStrip line
  if l = [] then st
  else
    match matchTimestampLine l with
    | some (ts, rest) =>
      (match st.2 with
       | some c => st.1 ++ [c]
       | none => st.1,
       some { timestamp := ts.asString, title := (pyStrip rest).asString, description := "" })
    | none =>
      match st.2 with
      | some c => (st.1, some { c with description := c.description ++ l.asString ++ " " })
      | none => st

/-- Embedding of `_parse_chapters(chapters_text)` on a character list. -/
def parseChaptersL (text : List Char) : List Chapter :=
  let st := (pySplitChar '\n' text).foldl chapterStep ([], none)
  match st.2 with
  | some c => st.1 ++ [c]
  | none => st.1

/-- Embedding of `_parse_chapters(chapters_text)` (`summarizer.py` lines 310-336). -/
def parseChapters (text : String) : List Chapter := parseChaptersL text.data

/-- A timestamp of the shape `\d{1,2}:\d{2}:\d{2}` (H:MM:SS or HH:MM:SS). -/
def wfTimestampL : List Char → Bool
  | [d1, d2, ':', m1, m2, ':', s1, s2] =>
    isDigit d1 && isDigit d2 && isDigit m1 && isDigit m2 && isDigit s1 && isDigit s2
  | [d1, ':', m1, m2, ':', s1, s2] =>
    isDigit d1 && isDigit m1 && isDigit m2 && isDigit s1 && isDigit s2
  | _ => false

/-- Predicate `wfTimestampL` lifted to a `String` timestamp. -/
def wfTimestamp (s : String) : Bool := wfTimestampL s.data

/-! ## Transcription reassembly (`transcription.py`, `_transcribe_chunked`,
lines 56-92) -/

/-- A Whisper time segment. Times are rationals modelling the Python floats
(`end` is a Lean keyword, renamed `stop`; exact for all values the claims
exercise). -/
structure Segment where
  start : ℚ
  stop : ℚ
  text : String
deriving DecidableEq

/-- The transcript dict produced by the transcription service. -/
structure TranscriptResult where
  text : String
  segments : List Segment
  language : Option String
  duration : Option ℚ
deriving DecidableEq

/-- The per-chunk result returned by `_transcribe_single_file` for one
10-minute chunk. -/
structure ChunkTranscript where
  text : String
  segments : List Segment
deriving DecidableEq

/-- Constant `chunk_length_ms = 10 * 60 * 1000`. -/
def chunkLengthMs : Nat := 10 * 60 * 1000

/-- Shift `segment["start"] += time_offset; segment["end"] += time_offset`. -/
def offsetSegment (timeOffset : ℚ) (s : Segment) : Segment :=
  { s with start := s.start + timeOffset, stop := s.stop + timeOffset }

/-- The accumulation loop of `_transcribe_chunked` (lines 71-81): collect the
chunk texts and the chunk segments shifted by
`time_offset = (i * chunk_length_ms) / 1000`; the Python guard
`if result.get("segments")` is the identity when the list is empty. -/
def transcribeChunkedLoop (i : Nat) : List ChunkTranscript → List String × List Segment
  | [] => ([], [])
  | r :: rest =>
    let next := transcribeChunkedLoop (i + 1) rest
    let timeOffset : ℚ := ((i : ℚ) * (chunkLengthMs : ℚ)) / 1000
    (r.text :: next.1, r.segments.map (offsetSegment timeOffset) ++ next.2)

/-- The reassembly of `_transcribe_chunked` (lines 87-92), taking the
per-chunk transcription results and the total audio length in milliseconds
as inputs (audio decoding and the Whisper calls are external). -/
def transcribeChunkedReassemble (results : List ChunkTranscript)
    (language : Option String) (audioLenMs : Nat) : TranscriptResult :=
  let acc := transcribeChunkedLoop 0 results
  { text := strJoin " " acc.1, segments := acc.2, language := language
    duration := some ((audioLenMs : ℚ) / 1000) }

/-! ## Transcript formatting (`transcription.py`, lines 94-113) -/

/-- Python float `%` with positive divisor: result in `[0, b)`. -/
def pyModQ (a b : ℚ) : ℚ := a - b * (⌊a / b⌋ : ℚ)

/-- Python `f"{n:02d}"`. -/
def pad2 (n : ℤ) : String :=
  if 0 ≤ n ∧ n < 10 then "0" ++ toString n else toString n

/-- Embedding of `_format_timestamp(seconds)` (`transcription.py` lines 105-113):
`int(seconds // 3600)`, `int((seconds % 3600) // 60)`, `int(seconds % 60)`
(the `int()` truncations act on non-negative values, hence equal floors),
rendered as `HH:MM:SS` when hours are positive, else `MM:SS`. -/
def formatTimestamp (seconds : ℚ) : String :=
  let hours : ℤ := ⌊seconds / 3600⌋
  let minutes : ℤ := ⌊pyModQ seconds 3600 / 60⌋
  let secs : ℤ := ⌊pyModQ seconds 60⌋
  if hours > 0 then pad2 hours ++ ":" ++ pad2 minutes ++ ":" ++ pad2 secs
  else pad2 minutes ++ ":" ++ pad2 secs

/-- Embedding of `format_transcript_with_timestamps` (`transcription.py` lines 94-103). -/
def formatTranscriptWithTimestamps (t : TranscriptResult) : String :=
  if t.segments.isEmpty then t.text
  else
    strJoin "\n" (t.segments.map (fun s =>
      "[" ++ formatTimestamp s.start ++ " - " ++ formatTimestamp s.stop ++ "] "
        ++ strStrip s.text))

/-! ## Markdown renderer (`output_generator.py`, `_build_markdown_content`,
lines 47-141) -/

/-- Python `int(q)`: truncation toward zero. -/
def pyInt (q : ℚ) : ℤ := if q < 0 then -⌊-q⌋ else ⌊q⌋

/-- Lookup `dict.get(k)` on the sections mapping. -/
def dictGet (d : List (String × String)) (k : String) : Option String :=
  (d.find? (fun p => p.1 = k)).map (fun p => p.2)

/-- Python truthiness of `dict.get(k)` for string values: present and
non-empty. -/
def truthyGet (d : List (String × String)) (k : String) : Bool :=
  match dictGet d k with
  | some v => v ≠ ""
  | none => false

/-- The `## <name>` block emitted for one present summary section. -/
def sectionBlock (d : List (String × String)) (k heading : String) : List String :=
  match dictGet d k with
  | some v => if v ≠ "" then ["## " ++ heading, "", v, ""] else []
  | none => []

/-- One table-of-contents entry (lines 80-83). -/
def chapterLines (c : Chapter) : List String :=
  ["- [" ++ c.timestamp ++ "] **" ++ c.title ++ "**"]
    ++ (if c.description ≠ "" then ["  - " ++ strStrip c.description] else [])

/-- Embedding of `_build_markdown_content` (`output_generator.py` lines 47-141), with the
`datetime.now().strftime(...)` generation timestamp passed in as `now`
(the claims fix it). Python truthiness of the optional inputs is modelled
explicitly (`None`, empty strings, empty lists and `0.0` are falsy). -/
def buildMarkdownContent (videoTitle : String) (summaryData : SummaryResult)
    (transcriptData : TranscriptResult) (videoUrl : Option String)
    (includeTranscript : Bool) (chapters : Option (List Chapter))
    (now : String) : String :=
  let lines : List String := ["# " ++ videoTitle, "", "**Generated on:** " ++ now]
  let lines := lines ++
    (match videoUrl with
     | some url => if url ≠ "" then ["**Source:** [" ++ url ++ "](" ++ url ++ ")"] else []
     | none => [])
  let lines := lines ++
    (match transcriptData.duration with
     | some d =>
       if d ≠ 0 then ["**Duration:** " ++ toString (pyInt (d / 60)) ++ " minutes"] else []
     | none => [])
  let lines := lines ++
    (match transcriptData.language with
     | some lang => if lang ≠ "" then ["**Language:** " ++ lang] else []
     | none => [])
  let lines := lines ++ ["", "---", ""]
  let lines := lines ++
    (match chapters with
     | some chs =>
       if chs ≠ [] then
         ["## Table of Contents", ""] ++ (chs.map chapterLines).flatten ++ [""]
       else []
     | none => [])
  let lines := lines ++
    (if summaryData.style = "detailed" && !summaryData.sections.isEmpty then
      sectionBlock summaryData.sections "overview" "Overview"
        ++ sectionBlock summaryData.sections "key_points" "Key Points"
        ++ sectionBlock summaryData.sections "details" "Important Details"
        ++ sectionBlock summaryData.sections "conclusion" "Conclusion"
    else ["## Summary", "", summaryData.summary, ""])
  let lines := lines ++
    ["## Statistics", "",
     "- **Summary word count:** " ++ toString summaryData.word_count,
     "- **Transcript word count:** " ++ toString (wordCount transcriptData.text), ""]
  let lines := lines ++
    (if includeTranscript then
      ["---", "", "## Full Transcript", ""] ++
        (if !transcriptData.segments.isEmpty then
          [formatTranscriptWithTimestamps transcriptData]
        else [transcriptData.text])
    else [])
  strJoin "\n" lines

/-! ## Statement-level helpers and concrete fixtures -/

/-- Re-interleave a sentence list with the separator runs that
`re.split` removed: `interleave [s1, s2, s3] [p1, p2] = s1 ++ p1 ++ s2 ++ p2 ++ s3`. -/
def interleave : List (List Char) → List (List Char) → List Char
  | [], _ => []
  | s :: _, [] => s
  | s :: ss, p :: ps => s ++ p ++ interleave ss ps

/-- Total character count of a group of sentences (without joining spaces),
the quantity `current_length` of the chunk loop tracks. -/
def sumLen (g : List (List Char)) : Nat := (g.map List.length).sum

/-- An oracle on which every model call fails. -/
def failOracle : Oracle := fun _ _ _ => .error "nope"

/-- An oracle that answers every call with the user prompt it received,
making the prompt that was sent observable in the result. -/
def echoOracle : Oracle := fun _ p _ => .ok p.user

/-- An oracle on which every model call succeeds with the fixed text `"ok"`. -/
def okOracle : Oracle := fun _ _ _ => .ok "ok"

/-- An oracle (on both models) that probes character 74 of the user prompt —
for the "brief" chunk prompts this is the first character of the substituted
chunk — and succeeds only on `a` or `c`. With the chunks `sentenceA`,
`sentenceB`, `sentenceC` below this makes chunk 2 fail on the primary and
the fallback model (the fallback uses the detailed prompts, whose character
74 is `2`) while chunks 1 and 3 succeed. -/
def failOnB : Oracle := fun _ p _ =>
  match (p.user.data.drop 74).head? with
  | some c => if c = 'a' || c = 'c' then .ok "fine" else .error "boom"
  | none => .error "boom"

/-- A 39 999-character sentence of one repeated letter: short enough to be a
chunk on its own, long enough that no two such sentences share a chunk. -/
def longSentence (c : Char) : String := (c :: List.replicate 39997 c ++ ['.']).asString

/-- The `longSentence` instances for the three chunks of the chunk-failure
scenario. -/
def sentenceA : String := longSentence 'a'

/-- Chunk 2 of the chunk-failure scenario: the only one mentioning `b`. -/
def sentenceB : String := longSentence 'b'

/-- Chunk 3 of the chunk-failure scenario. -/
def sentenceC : String := longSentence 'c'

/-- A 119 999-character transcript splitting into exactly the three chunks
`sentenceA`, `sentenceB`, `sentenceC` (estimated tokens 29 999 > 10 000, so
`summarize_transcript` enters chunked mode). -/
def threeChunkTranscript : String := sentenceA ++ " " ++ sentenceB ++ " " ++ sentenceC

/-- A 40 004-character sentence-free transcript: estimated tokens
10 001 > 10 000, so chunked mode is entered with a single chunk. -/
def oneChunkTranscript : String := (List.replicate 40004 'a').asString

/-- The successful per-chunk result `failOnB` produces. -/
def fineResult : SummaryResult :=
  { summary := "fine", style := "simple", word_count := 1, sections := [("main", "fine")] }

/-! # Theorems

## Splitter lemmas -/

theorem takeWs_append_dropWs (l : List Char) : takeWs l ++ dropWs l = l := by
  induction l with
  | nil => rfl
  | cons c cs ih =>
    by_cases h : isPyWs c = true <;> simp [takeWs, dropWs, h, ih]

theorem takeWs_all_ws (l : List Char) : ∀ c ∈ takeWs l, isPyWs c = true := by
  induction l with
  | nil => intro c hc; simp [takeWs] at hc
  | cons a as ih =>
    intro c hc
    by_cases h : isPyWs a = true
    · simp only [takeWs, h, if_true, List.mem_cons] at hc
      rcases hc with rfl | hc
      · exact h
      · exact ih c hc
    · simp [takeWs, h] at hc

theorem dropWs_length_le (l : List Char) : (dropWs l).length ≤ l.length := by
  induction l with
  | nil => simp [dropWs]
  | cons c cs ih =>
    by_cases h : isPyWs c = true <;> simp [dropWs, h]
    omega

/-- In separator mode the scanner just discards the leading whitespace run
and restarts in sentence mode. -/
theorem splitSentencesGo_true (rest : List Char) :
    splitSentencesGo true [] rest = splitSentencesGo false [] (dropWs rest) := by
  induction rest with
  | nil => rfl
  | cons c cs ih =>
    by_cases h : isPyWs c = true
    · rw [show splitSentencesGo true [] (c :: cs) = splitSentencesGo true [] cs by
        simp [splitSentencesGo, h], ih]
      simp [dropWs, h]
    · simp [splitSentencesGo, dropWs, h]

/-- The sentences the splitter produces, interleaved with the nonempty
whitespace runs the split dropped, reassemble the remaining input after the
accumulated partial sentence. -/
theorem splitSentencesGo_reconstruct :
    ∀ (n : Nat) (rest : List Char), rest.length ≤ n → ∀ acc : List Char,
      ∃ seps : List (List Char),
        (splitSentencesGo false acc rest).length = seps.length + 1 ∧
        (∀ p ∈ seps, p ≠ [] ∧ ∀ c ∈ p, isPyWs c = true) ∧
        interleave (splitSentencesGo false acc rest) seps = acc.reverse ++ rest := by
  intro n
  induction n with
  | zero =>
    intro rest hle acc
    have hr : rest = [] := List.length_eq_zero.mp (Nat.le_zero.mp hle)
    subst hr
    exact ⟨[], by simp [splitSentencesGo, interleave]⟩
  | succ n ih =>
    intro rest hle acc
    cases rest with
    | nil => exact ⟨[], by simp [splitSentencesGo, interleave]⟩
    | cons c cs =>
      cases acc with
      | nil =>
        obtain ⟨seps, hlen, hws, hint⟩ :=
          ih cs (by simpa using Nat.lt_succ_iff.mp (Nat.lt_of_lt_of_le (by simp) hle)) [c]
        exact ⟨seps, by simpa [splitSentencesGo] using hlen, hws, by
          simpa [splitSentencesGo] using hint⟩
      | cons p ps =>
        by_cases hc : (isSentEnd p && isPyWs c) = true
        · have hcs : cs.length ≤ n := by
            have := hle; simp only [List.length_cons] at this; omega
          obtain ⟨seps, hlen, hws, hint⟩ :=
            ih (dropWs cs) (le_trans (dropWs_length_le cs) hcs) []
          have hgo : splitSentencesGo false (p :: ps) (c :: cs)
              = (p :: ps).reverse :: splitSentencesGo false [] (dropWs cs) := by
            rw [show splitSentencesGo false (p :: ps) (c :: cs)
                = (p :: ps).reverse :: splitSentencesGo true [] cs by
              simp [splitSentencesGo, hc], splitSentencesGo_true]
          refine ⟨(c :: takeWs cs) :: seps, ?_, ?_, ?_⟩
          · simp [hgo, hlen]
          · intro q hq
            rcases List.mem_cons.mp hq with rfl | hq
            · refine ⟨by simp, ?_⟩
              intro x hx
              rcases List.mem_cons.mp hx with rfl | hx
              · exact (Bool.and_elim_right hc)
              · exact takeWs_all_ws cs x hx
            · exact hws q hq
          · rw [hgo]
            show (p :: ps).reverse ++ (c :: takeWs cs)
                ++ interleave (splitSentencesGo false [] (dropWs cs)) seps
              = (p :: ps).reverse ++ (c :: cs)
            rw [hint]
            simp [takeWs_append_dropWs cs]
        · have hcs : cs.length ≤ n := by
            have := hle; simp only [List.length_cons] at this; omega
          obtain ⟨seps, hlen, hws, hint⟩ := ih cs hcs (c :: p :: ps)
          refine ⟨seps, ?_, hws, ?_⟩
          · simpa [splitSentencesGo, hc] using hlen
          · simp only [splitSentencesGo, hc, if_false, Bool.false_eq_true]
            rw [hint]
            simp

theorem sumLen_append_single (g : List (List Char)) (s : List Char) :
    sumLen (g ++ [s]) = sumLen g + s.length := by
  simp [sumLen]

/-- Grouping invariant of the chunk loop: the output extends the emitted
chunks with single-space joins of consecutive groups of the pending
sentences (the partial current group first); every group is nonempty and
either fits the bound by summed sentence length or is a single sentence. -/
theorem chunkLoop_groups (N : Nat) :
    ∀ (sentences current chunks : List (List Char)),
      (current = [] ∨ sumLen current ≤ N ∨ current.length = 1) →
      ∃ groups : List (List (List Char)),
        chunkLoop N chunks current (sumLen current) sentences
          = chunks ++ groups.map (joinSep [' ']) ∧
        groups.flatten = current ++ sentences ∧
        ∀ g ∈ groups, g ≠ [] ∧ (sumLen g ≤ N ∨ g.length = 1) := by
  intro sentences
  induction sentences with
  | nil =>
    intro current chunks hcur
    cases current with
    | nil => exact ⟨[], by simp [chunkLoop]⟩
    | cons x xs =>
      refine ⟨[x :: xs], by simp [chunkLoop], by simp, ?_⟩
      intro g hg
      rcases List.mem_singleton.mp hg with rfl
      refine ⟨by simp, ?_⟩
      rcases hcur with h | h
      · exact absurd h (by simp)
      · exact h
  | cons s rest ih =>
    intro current chunks hcur
    by_cases hcond : (sumLen current + s.length > N && !current.isEmpty) = true
    · have hne : current ≠ [] := by
        rcases Bool.and_elim_right hcond with h
        simpa [List.isEmpty_iff] using h
      obtain ⟨groups, heq, hflat, hok⟩ :=
        ih [s] (chunks ++ [joinSep [' '] current]) (Or.inr (Or.inr (by simp)))
      refine ⟨current :: groups, ?_, ?_, ?_⟩
      · have : sumLen [s] = s.length := by simp [sumLen]
        rw [chunkLoop, if_pos hcond, ← this, heq]
        simp
      · simp [hflat]
      · intro g hg
        rcases List.mem_cons.mp hg with rfl | hg
        · refine ⟨hne, ?_⟩
          rcases hcur with h | h
          · exact absurd h hne
          · exact h
        · exact hok g hg
    · have hcases : sumLen current + s.length ≤ N ∨ current = [] := by
        by_cases h1 : sumLen current + s.length > N
        · right
          by_contra h2
          exact hcond (by simp [h1, h2])
        · left; omega
      obtain ⟨groups, heq, hflat, hok⟩ :=
        ih (current ++ [s]) chunks (by
          rcases hcases with h | h
          · exact Or.inr (Or.inl (by rw [sumLen_append_single]; exact h))
          · subst h; exact Or.inr (Or.inr (by simp)))
      refine ⟨groups, ?_, ?_, hok⟩
      · rw [chunkLoop, if_neg hcond, ← sumLen_append_single, heq]
      · rw [hflat]
        simp

theorem joinSep_cons_cons (sep x y : List Char) (ys : List (List Char)) :
    joinSep sep (x :: y :: ys) = x ++ sep ++ joinSep sep (y :: ys) := rfl

theorem joinSep_append (sep : List Char) :
    ∀ g h : List (List Char), g ≠ [] → h ≠ [] →
      joinSep sep (g ++ h) = joinSep sep g ++ sep ++ joinSep sep h := by
  intro g
  induction g with
  | nil => intro h hg _; exact absurd rfl hg
  | cons x g' ih =>
    intro h hg hh
    cases g' with
    | nil =>
      cases h with
      | nil => exact absurd rfl hh
      | cons y h' => simp [joinSep_cons_cons, joinSep]
    | cons z g'' =>
      have hrec := ih h (by simp) hh
      calc joinSep sep ((x :: z :: g'') ++ h)
          = x ++ sep ++ joinSep sep ((z :: g'') ++ h) := by
            simp only [List.cons_append]
            rw [joinSep_cons_cons]
        _ = x ++ sep ++ (joinSep sep (z :: g'') ++ sep ++ joinSep sep h) := by rw [hrec]
        _ = joinSep sep (x :: z :: g'') ++ sep ++ joinSep sep h := by
            rw [joinSep_cons_cons]; simp [List.append_assoc]

theorem flatten_ne_nil_of_head_ne_nil (g : List (List Char)) (gs : List (List (List Char)))
    (hg : g ≠ []) : (g :: gs).flatten ≠ [] := by
  simp only [List.flatten_cons]
  intro h
  exact hg (List.append_eq_nil.mp h).1

/-- Joining space-joined groups with spaces is the same as space-joining the
underlying sentence list, provided no group is empty. -/
theorem joinSep_map_joinSep (sep : List Char) :
    ∀ gs : List (List (List Char)), (∀ g ∈ gs, g ≠ []) →
      joinSep sep (gs.map (joinSep sep)) = joinSep sep gs.flatten := by
  intro gs
  induction gs with
  | nil => intro _; rfl
  | cons g gs ih =>
    intro hne
    cases gs with
    | nil => simp [joinSep]
    | cons g2 gs2 =>
      have hg : g ≠ [] := hne g (List.mem_cons_self g _)
      have hg2 : g2 ≠ [] := hne g2 (by simp)
      have hrest : (g2 :: gs2).flatten ≠ [] := flatten_ne_nil_of_head_ne_nil g2 gs2 hg2
      calc joinSep sep ((g :: g2 :: gs2).map (joinSep sep))
          = joinSep sep g ++ sep ++ joinSep sep ((g2 :: gs2).map (joinSep sep)) := by
            simp only [List.map_cons]
            rw [joinSep_cons_cons]
        _ = joinSep sep g ++ sep ++ joinSep sep (g2 :: gs2).flatten := by
            rw [ih (fun g hgm => hne g (List.mem_cons_of_mem _ hgm))]
        _ = joinSep sep ((g :: g2 :: gs2).flatten) := by
            show joinSep sep g ++ sep ++ joinSep sep (g2 :: gs2).flatten
              = joinSep sep (g ++ (g2 :: gs2).flatten)
            rw [joinSep_append sep g (g2 :: gs2).flatten hg hrest]

theorem data_asString (l : List Char) : (l.asString).data = l := rfl

/-! ## C2: chunk split reconstruction and size bound -/

/-- **C2** (counterexample). As stated the claim fails on both conjuncts:
`split("A.\nB.", 100)` returns the single chunk `"A. B."`, in which the
newline separator removed at the sentence boundary has been replaced by a
single space, so no restoration of boundary separators can reproduce the
original text; and `split("a. b.", 4)` returns the single chunk `"a. b."`
of length 5 > 4, which consists of two sentences (each of length 2 ≤ 4),
because the loop compares only the sum of sentence lengths and ignores the
joining spaces. -/
theorem chunk_split_reconstruction_cex :
    splitTranscriptIntoChunks "A.\nB." 100 = ["A. B."] ∧ "A. B." ≠ "A.\nB." ∧
    splitTranscriptIntoChunks "a. b." 4 = ["a. b."] ∧ ("a. b." : String).length = 5 ∧
    splitSentences "a. b.".data = ["a.".data, "b.".data] := by
  refine ⟨by decide, by decide, by decide, by decide, by decide⟩

/-- **C2** (amended): `split(text, N)` partitions the sentence list of
`text` (as split by `(?<=[.!?])\s+`) into consecutive non-empty groups and
returns each group joined with single spaces; interleaving the sentence
list with the removed (non-empty, all-whitespace) separator runs restores
the original text exactly, so the concatenated chunks reconstruct the
original up to replacing each sentence-boundary whitespace run by a single
space; and each group has summed sentence length at most N unless it is a
single sentence (the chunk string itself may exceed N by its number of
joining spaces). -/
theorem chunk_split_reconstruction (transcript : String) (N : Nat) :
    ∃ (seps : List (List Char)) (groups : List (List (List Char))),
      (splitSentences transcript.data).length = seps.length + 1 ∧
      (∀ p ∈ seps, p ≠ [] ∧ ∀ c ∈ p, isPyWs c = true) ∧
      interleave (splitSentences transcript.data) seps = transcript.data ∧
      groups.flatten = splitSentences transcript.data ∧
      splitTranscriptIntoChunks transcript N
        = (groups.map (joinSep [' '])).map List.asString ∧
      (∀ g ∈ groups, g ≠ [] ∧ (sumLen g ≤ N ∨ g.length = 1)) ∧
      joinSep [' '] ((splitTranscriptIntoChunks transcript N).map String.data)
        = joinSep [' '] (splitSentences transcript.data) := by
  obtain ⟨seps, h1, h2, h3⟩ :=
    splitSentencesGo_reconstruct transcript.data.length transcript.data le_rfl []
  obtain ⟨groups, g1, g2, g3⟩ :=
    chunkLoop_groups N (splitSentences transcript.data) [] [] (Or.inl rfl)
  have hzero : sumLen ([] : List (List Char)) = 0 := rfl
  rw [hzero] at g1
  have hchunks : splitTranscriptIntoChunks transcript N
      = (groups.map (joinSep [' '])).map List.asString := by
    unfold splitTranscriptIntoChunks
    rw [g1]
    simp
  refine ⟨seps, groups, h1, h2, by simpa [splitSentences] using h3,
    by simpa using g2, hchunks, g3, ?_⟩
  rw [hchunks]
  have hmm : ((groups.map (joinSep [' '])).map List.asString).map String.data
      = groups.map (joinSep [' ']) := by
    simp [List.map_map, Function.comp, data_asString]
  rw [hmm, joinSep_map_joinSep [' '] groups (fun g hg => (g3 g hg).1), g2]
  simp

/-! ## C6: split of the empty string -/

/-- **C6** (counterexample). `split("", 40000)` is `[""]`, a one-element list
holding the empty chunk, not the empty sequence: `re.split` on the empty
string yields `[""]`, the loop appends the empty sentence to the current
chunk, and the final flush emits it. -/
theorem split_empty_cex :
    splitTranscriptIntoChunks "" 40000 = [""] ∧ ([""] : List String) ≠ [] := by
  refine ⟨by decide, by decide⟩

/-- **C6** (amended): for every bound N, `split("", N)` is `[""]` — one empty
chunk, never the empty list. -/
theorem split_empty (N : Nat) : splitTranscriptIntoChunks "" N = [""] := by
  show (chunkLoop N [] [] 0 (splitSentences "".data)).map List.asString = [""]
  have h1 : splitSentences "".data = [[]] := rfl
  rw [h1]
  simp only [chunkLoop, List.length_nil, Nat.add_zero, List.isEmpty_nil, Bool.not_true,
    Bool.and_false, Bool.false_eq_true, if_false, List.nil_append, List.isEmpty_cons,
    if_true]
  decide

/-! ## C3: prompt variant used for chunk summarization -/

/-- **C3** (counterexample). With an oracle that echoes the user prompt it
received, a chunked-mode per-chunk call for the requested style "bullet"
demonstrably sends the bullet prompt, not the "brief" variant: the echoed
summary is the formatted bullet user prompt, which differs from the
formatted brief user prompt. -/
theorem chunk_brief_style_cex :
    (chunkPrimaryAttempt echoOracle "bullet" (getPrompts "bullet") "Hello.").map
        (fun r => r.summary)
      = .ok "Create a bullet-point summary of the main ideas in this transcript:\n\nHello." ∧
    "Create a bullet-point summary of the main ideas in this transcript:\n\nHello."
      ≠ formatPrompt (getPrompts "brief").user "Hello." := by
  refine ⟨by decide, by decide⟩

/-- **C3** (amended): in chunked mode the "brief" prompt variant (with a
500-token cap) is used for per-chunk summarization only when the requested
style is "detailed"; for every other style each chunk is summarized with the
prompts passed in for the originally requested style (with a 300-token cap)
— under `summarize_transcript` these are `_get_prompts(style)`: the brief
prompts for "brief", the bullet prompts for "bullet", and the detailed
prompts for unrecognized styles such as "simple". -/
theorem chunk_brief_style (o : Oracle) (style : String) (prompts : Prompt)
    (chunk : String) (hstyle : style ≠ "detailed") :
    chunkPrimaryAttempt o "detailed" prompts chunk
        = simpleSummary o chunk (getPrompts "brief") (some 500) ∧
    chunkPrimaryAttempt o style prompts chunk
        = simpleSummary o chunk prompts (some 300) := by
  constructor
  · simp [chunkPrimaryAttempt]
  · simp [chunkPrimaryAttempt, hstyle]

/-- Closed witness for `chunk_brief_style` at style `"bullet"`. -/
theorem chunk_brief_style_witness :
    chunkPrimaryAttempt failOracle "detailed" (getPrompts "bullet") "T."
        = simpleSummary failOracle "T." (getPrompts "brief") (some 500) ∧
    chunkPrimaryAttempt failOracle "bullet" (getPrompts "bullet") "T."
        = simpleSummary failOracle "T." (getPrompts "bullet") (some 300) :=
  chunk_brief_style failOracle "bullet" (getPrompts "bullet") "T." (by decide)

/-! ## C8: the `style` field of returned results -/

theorem simpleSummaryWithFallback_style (o : Oracle) (t : String) (p : Prompt)
    (m : Option Nat) (r : SummaryResult)
    (h : simpleSummaryWithFallback o t p m = .ok r) : r.style = "simple" := by
  unfold simpleSummaryWithFallback at h
  split at h
  · cases h; rfl
  · cases h

theorem simpleSummary_style (o : Oracle) (t : String) (p : Prompt)
    (m : Option Nat) (r : SummaryResult)
    (h : simpleSummary o t p m = .ok r) : r.style = "simple" := by
  unfold simpleSummary at h
  split at h
  · cases h; rfl
  · split at h
    · exact simpleSummaryWithFallback_style o t p m r h
    · cases h

theorem detailedSummary_style (o : Oracle) (t : String) (p : Prompt)
    (m : Option Nat) (r : SummaryResult)
    (h : detailedSummary o t p m = .ok r) :
    r.style = "detailed" ∨ r.style = "simple" := by
  unfold detailedSummary at h
  split at h
  · cases h; left; rfl
  · split at h
    · exact Or.inr (simpleSummaryWithFallback_style o t p m r h)
    · cases h

theorem finalCombine_style (o : Oracle) (style combined : String) (r : SummaryResult)
    (h : finalCombine o style combined = .ok r) :
    r.style = "detailed" ∨ r.style = "simple" := by
  unfold finalCombine at h
  split at h
  · exact detailedSummary_style _ _ _ _ _ h
  · exact Or.inr (simpleSummary_style _ _ _ _ _ h)

theorem summarizeChunkedTranscript_style (o : Oracle) (transcript style : String)
    (prompts : Prompt) :
    (summarizeChunkedTranscript o transcript style prompts).style = "detailed" ∨
    (summarizeChunkedTranscript o transcript style prompts).style = "simple" ∨
    (summarizeChunkedTranscript o transcript style prompts).style = style := by
  unfold summarizeChunkedTranscript
  dsimp only
  split
  · rename_i r heq
    rcases finalCombine_style o style _ r heq with h | h
    · exact Or.inl h
    · exact Or.inr (Or.inl h)
  · exact Or.inr (Or.inr rfl)

/-- **C8** (amended): every `SummaryResult` that `summarize_transcript`
returns has style `"detailed"` or `"simple"`, except on the degraded
concatenation fallback of chunked mode, which copies the requested style
verbatim — so in general the style is one of `"detailed"`, `"simple"`, or
the requested style itself. -/
theorem summary_style (o : Oracle) (transcript style : String) (m : Option Nat)
    (r : SummaryResult) (h : summarizeTranscript o transcript style m = .ok r) :
    r.style = "detailed" ∨ r.style = "simple" ∨ r.style = style := by
  simp only [summarizeTranscript] at h
  split at h
  · simp at h
  · split at h
    · cases h
      exact summarizeChunkedTranscript_style o transcript style (getPrompts style)
    · split at h
      · rcases detailedSummary_style _ _ _ _ _ h with h1 | h1
        · exact Or.inl h1
        · exact Or.inr (Or.inl h1)
      · exact Or.inr (Or.inl (simpleSummary_style _ _ _ _ _ h))

/-- Closed witness for `summary_style` on the small single-shot path. -/
theorem summary_style_witness :
    ({ summary := "ok", style := "simple", word_count := 1,
       sections := [("main", "ok")] } : SummaryResult).style = "detailed" ∨
    ({ summary := "ok", style := "simple", word_count := 1,
       sections := [("main", "ok")] } : SummaryResult).style = "simple" ∨
    ({ summary := "ok", style := "simple", word_count := 1,
       sections := [("main", "ok")] } : SummaryResult).style = "brief" :=
  summary_style okOracle "Hi." "brief" none _ (by decide)

/-- **C8** (counterexample). On the degraded concatenation fallback the
claim fails: a 40 004-character transcript (estimated 10 001 tokens) with
requested style "bullet" and an oracle on which every model call fails
yields a result whose `style` field is `"bullet"`, which is neither
`"detailed"` nor `"simple"`. -/
theorem length_asString (l : List Char) : (List.asString l).length = l.length := rfl

theorem asString_data (s : String) : s.data.asString = s := rfl

/-- While no whitespace character is consumed, the splitter only accumulates:
processing `l ++ rest` from accumulator `acc` is processing `rest` from
accumulator `l.reverse ++ acc`. -/
theorem splitGo_noWs :
    ∀ l : List Char, (∀ c ∈ l, isPyWs c = false) →
      ∀ acc rest : List Char,
        splitSentencesGo false acc (l ++ rest)
          = splitSentencesGo false (l.reverse ++ acc) rest := by
  intro l
  induction l with
  | nil => intro _ acc rest; simp
  | cons c cs ih =>
    intro hl acc rest
    have hc : isPyWs c = false := hl c (List.mem_cons_self c cs)
    have hcs : ∀ x ∈ cs, isPyWs x = false := fun x hx => hl x (List.mem_cons_of_mem c hx)
    cases acc with
    | nil =>
      show splitSentencesGo false [c] (cs ++ rest)
        = splitSentencesGo false ((c :: cs).reverse ++ []) rest
      rw [ih hcs [c] rest]
      simp
    | cons p ps =>
      have hcond : (isSentEnd p && isPyWs c) = false := by simp [hc]
      show splitSentencesGo false (p :: ps) (c :: (cs ++ rest))
        = splitSentencesGo false ((c :: cs).reverse ++ p :: ps) rest
      rw [show splitSentencesGo false (p :: ps) (c :: (cs ++ rest))
          = splitSentencesGo false (c :: p :: ps) (cs ++ rest) by
        simp [splitSentencesGo, hcond]]
      rw [ih hcs (c :: p :: ps) rest]
      simp

/-- A whitespace-free text is a single sentence for the splitter. -/
theorem splitSentences_noWs (l : List Char) (hl : ∀ c ∈ l, isPyWs c = false) :
    splitSentences l = [l] := by
  have h := splitGo_noWs l hl [] []
  rw [List.append_nil] at h
  show splitSentencesGo false [] l = [l]
  rw [h]
  simp [splitSentencesGo]

/-- Consuming a whitespace-free sentence that ends in sentence punctuation
followed by one whitespace separator character emits the sentence and
continues after the separator (provided the remainder does not start with
more whitespace). -/
theorem splitGo_sentence_step (body rest : List Char) (e sep1 : Char)
    (hbody : ∀ x ∈ body, isPyWs x = false)
    (he : isPyWs e = false) (hesent : isSentEnd e = true) (hsep : isPyWs sep1 = true)
    (hrest : dropWs rest = rest) :
    splitSentencesGo false [] ((body ++ [e]) ++ sep1 :: rest)
      = (body ++ [e]) :: splitSentencesGo false [] rest := by
  have hall : ∀ x ∈ body ++ [e], isPyWs x = false := by
    intro x hx
    rcases List.mem_append.mp hx with hx | hx
    · exact hbody x hx
    · rcases List.mem_singleton.mp hx with rfl; exact he
  rw [splitGo_noWs (body ++ [e]) hall [] (sep1 :: rest)]
  rw [List.append_nil, List.reverse_append, List.reverse_singleton, List.singleton_append]
  rw [show splitSentencesGo false (e :: body.reverse) (sep1 :: rest)
      = (e :: body.reverse).reverse :: splitSentencesGo true [] rest by
    simp [splitSentencesGo, hesent, hsep]]
  rw [splitSentencesGo_true, hrest]
  simp

/-- The chunk loop started on a single pending sentence returns that
sentence as the only chunk (whatever its length: the bound check only fires
on a non-empty current chunk). -/
theorem chunkLoop_singleton (N : Nat) (l : List Char) :
    chunkLoop N [] [] 0 [l] = [l] := by
  have hcond : (decide (0 + l.length > N) && !(List.isEmpty ([] : List (List Char))))
      = false := by simp
  rw [chunkLoop, hcond]
  show chunkLoop N [] ([] ++ [l]) (0 + l.length) [] = [l]
  rw [chunkLoop]
  rfl

/-- The splitter on `oneChunkTranscript`: a single 40 004-character sentence. -/
theorem splitChunks_oneChunk :
    splitTranscriptIntoChunks oneChunkTranscript 40000 = [oneChunkTranscript] := by
  have hdata : oneChunkTranscript.data = List.replicate 40004 'a' := rfl
  have hsent : splitSentences oneChunkTranscript.data = [List.replicate 40004 'a'] := by
    rw [hdata]
    exact splitSentences_noWs _ (by
      intro c hc
      rcases List.eq_of_mem_replicate hc with ⟨_, rfl⟩
      decide)
  show (chunkLoop 40000 [] [] 0 (splitSentences oneChunkTranscript.data)).map List.asString
    = [oneChunkTranscript]
  rw [hsent, chunkLoop_singleton]
  rfl

/-- **C8** (counterexample). On the degraded concatenation fallback the
claim fails: a 40 004-character transcript (estimated 10 001 tokens) with
requested style "bullet" and an oracle on which every model call fails
yields a result whose `style` field is `"bullet"`, which is neither
`"detailed"` nor `"simple"`. -/
theorem summary_style_cex :
    summarizeTranscript failOracle oneChunkTranscript "bullet" none
      = .ok { summary := "[Chunk 1 summary failed]", style := "bullet", word_count := 4,
              sections := [("main", "[Chunk 1 summary failed]")],
              note := some "This is a concatenation of chunk summaries due to length constraints." } ∧
    ¬("bullet" = "detailed" ∨ "bullet" = "simple") := by
  constructor
  · have hlen : oneChunkTranscript.length = 40004 := by
      show ((List.replicate 40004 'a').asString).length = 40004
      rw [length_asString, List.length_replicate]
    have hne : ¬(oneChunkTranscript = "") := by
      intro h
      have := congrArg String.length h
      rw [hlen] at this
      simp at this
    rw [show summarizeTranscript failOracle oneChunkTranscript "bullet" none
        = .ok (summarizeChunkedTranscript failOracle oneChunkTranscript "bullet"
            (getPrompts "bullet")) by
      simp only [summarizeTranscript, hlen]
      rw [if_neg hne]
      norm_num]
    rw [show summarizeChunkedTranscript failOracle oneChunkTranscript "bullet"
          (getPrompts "bullet")
        = match finalCombine failOracle "bullet"
            (strJoin "\n\n" (summarizeChunks failOracle "bullet" (getPrompts "bullet")
              [oneChunkTranscript] 0)) with
          | .ok r => r
          | .error _ =>
            { summary := strJoin "\n\n" (summarizeChunks failOracle "bullet"
                (getPrompts "bullet") [oneChunkTranscript] 0)
              style := "bullet"
              word_count := wordCount (strJoin "\n\n" (summarizeChunks failOracle "bullet"
                (getPrompts "bullet") [oneChunkTranscript] 0))
              sections := [("main", strJoin "\n\n" (summarizeChunks failOracle "bullet"
                (getPrompts "bullet") [oneChunkTranscript] 0))]
              note := some "This is a concatenation of chunk summaries due to length constraints." } by
      unfold summarizeChunkedTranscript
      rw [splitChunks_oneChunk]]
    rw [show summarizeChunks failOracle "bullet" (getPrompts "bullet")
          [oneChunkTranscript] 0 = ["[Chunk 1 summary failed]"] by
      simp only [summarizeChunks]
      rw [show chunkPrimaryAttempt failOracle "bullet" (getPrompts "bullet")
            oneChunkTranscript = .error "Summarization failed: nope" by rfl]
      rw [show simpleSummaryWithFallback failOracle oneChunkTranscript
            (getPrompts "bullet") (some 300)
          = .error "Fallback summarization also failed: nope" by rfl]
      decide]
    decide
  · decide

/-! ## C1: chunk-failure isolation in chunked mode -/

/-- **C1**: in chunked mode, model-call failures never abort the run. If the
transcript is non-empty and large enough to enter chunked mode and splits
into three chunks of which chunk 2 fails on the primary attempt and on the
fallback model while chunks 1 and 3 succeed, then: the chunk-summary list
holds the genuine summaries for chunks 1 and 3 and the placeholder
`"[Chunk 2 summary failed]"` for chunk 2; `summarize_transcript` returns a
result (nothing is raised); and if the final recombination also fails, the
returned result is the concatenated chunk summaries with the degraded-output
`note` field set. -/
theorem chunk_failures_isolated (o : Oracle) (transcript style : String)
    (c1 c2 c3 : String) (r1 r3 : SummaryResult) (e2 e2f : String)
    (hne : transcript ≠ "")
    (hbig : transcript.length / 4 > 10000)
    (hsplit : splitTranscriptIntoChunks transcript 40000 = [c1, c2, c3])
    (h1 : chunkPrimaryAttempt o style (getPrompts style) c1 = .ok r1)
    (h2p : chunkPrimaryAttempt o style (getPrompts style) c2 = .error e2)
    (h2f : simpleSummaryWithFallback o c2 (getPrompts style) (some 300) = .error e2f)
    (h3 : chunkPrimaryAttempt o style (getPrompts style) c3 = .ok r3) :
    summarizeChunks o style (getPrompts style) [c1, c2, c3] 0
        = [r1.summary, "[Chunk 2 summary failed]", r3.summary] ∧
    (∃ r, summarizeTranscript o transcript style none = .ok r) ∧
    (∀ ef, finalCombine o style
          (strJoin "\n\n" [r1.summary, "[Chunk 2 summary failed]", r3.summary])
        = .error ef →
      summarizeTranscript o transcript style none = .ok
        { summary := strJoin "\n\n" [r1.summary, "[Chunk 2 summary failed]", r3.summary]
          style := style
          word_count := wordCount (strJoin "\n\n"
            [r1.summary, "[Chunk 2 summary failed]", r3.summary])
          sections := [("main", strJoin "\n\n"
            [r1.summary, "[Chunk 2 summary failed]", r3.summary])]
          note := some "This is a concatenation of chunk summaries due to length constraints." }) := by
  have hph : ("[Chunk " ++ toString (0 + 1 + 1) ++ " summary failed]" : String)
      = "[Chunk 2 summary failed]" := by decide
  have hchunks : summarizeChunks o style (getPrompts style) [c1, c2, c3] 0
      = [r1.summary, "[Chunk 2 summary failed]", r3.summary] := by
    simp only [summarizeChunks, h1, h2p, h2f, h3, hph]
  have hmain : summarizeTranscript o transcript style none
      = .ok (summarizeChunkedTranscript o transcript style (getPrompts style)) := by
    simp only [summarizeTranscript]
    rw [if_neg hne, if_pos hbig]
  have hchunked : summarizeChunkedTranscript o transcript style (getPrompts style)
      = match finalCombine o style
          (strJoin "\n\n" [r1.summary, "[Chunk 2 summary failed]", r3.summary]) with
        | .ok r => r
        | .error _ =>
          { summary := strJoin "\n\n" [r1.summary, "[Chunk 2 summary failed]", r3.summary]
            style := style
            word_count := wordCount (strJoin "\n\n"
              [r1.summary, "[Chunk 2 summary failed]", r3.summary])
            sections := [("main", strJoin "\n\n"
              [r1.summary, "[Chunk 2 summary failed]", r3.summary])]
            note := some "This is a concatenation of chunk summaries due to length constraints." } := by
    unfold summarizeChunkedTranscript
    rw [hsplit]
    dsimp only
    rw [hchunks]
  refine ⟨hchunks, ?_, ?_⟩
  · rw [hmain, hchunked]
    cases hfc : finalCombine o style
        (strJoin "\n\n" [r1.summary, "[Chunk 2 summary failed]", r3.summary]) with
    | ok r => exact ⟨r, rfl⟩
    | error e => exact ⟨_, rfl⟩
  · intro ef hef
    rw [hmain, hchunked, hef]

theorem data_append (a b : String) : (a ++ b).data = a.data ++ b.data := rfl

theorem chunkLoop_step_false (N len : Nat) (chunks cur : List (List Char)) (s : List Char)
    (rest : List (List Char))
    (h : (decide (len + s.length > N) && !cur.isEmpty) = false) :
    chunkLoop N chunks cur len (s :: rest)
      = chunkLoop N chunks (cur ++ [s]) (len + s.length) rest := by
  rw [chunkLoop, h]
  exact rfl

theorem chunkLoop_step_true (N len : Nat) (chunks cur : List (List Char)) (s : List Char)
    (rest : List (List Char))
    (h : (decide (len + s.length > N) && !cur.isEmpty) = true) :
    chunkLoop N chunks cur len (s :: rest)
      = chunkLoop N (chunks ++ [joinSep [' '] cur]) [s] s.length rest := by
  rw [chunkLoop, h]
  exact rfl

theorem chunkLoop_flush (N len : Nat) (chunks cur : List (List Char))
    (h : cur.isEmpty = false) :
    chunkLoop N chunks cur len [] = chunks ++ [joinSep [' '] cur] := by
  rw [chunkLoop, h]
  exact rfl

/-- The chunk loop on three pending sentences of which no two consecutive
ones fit one chunk together: one chunk per sentence. -/
theorem chunkLoop_three (N : Nat) (x y z : List Char)
    (hxy : 0 + x.length + y.length > N) (hyz : y.length + z.length > N) :
    chunkLoop N [] [] 0 [x, y, z] = [x, y, z] := by
  rw [chunkLoop_step_false N 0 [] [] x [y, z] (by simp)]
  rw [chunkLoop_step_true N (0 + x.length) [] ([] ++ [x]) y [z] (by simp; omega)]
  rw [chunkLoop_step_true N y.length ([] ++ [joinSep [' '] ([] ++ [x])]) [y] z []
    (by simp; omega)]
  rw [chunkLoop_flush N z.length _ [z] (by simp)]
  have hj : ∀ v : List Char, joinSep [' '] [v] = v := fun v => rfl
  simp only [List.nil_append, hj]
  exact rfl

theorem longSentence_data_len (c : Char) : (longSentence c).data.length = 39999 := by
  show (c :: List.replicate 39997 c ++ ['.']).length = 39999
  simp only [List.length_cons, List.length_append, List.length_replicate, List.length_nil]

theorem sentenceA_len : sentenceA.data.length = 39999 := longSentence_data_len 'a'

theorem sentenceB_len : sentenceB.data.length = 39999 := longSentence_data_len 'b'

theorem sentenceC_len : sentenceC.data.length = 39999 := longSentence_data_len 'c'

theorem space_data : (" " : String).data = [' '] := rfl

/-- Reassociate a five-part append into the sentence-separator-rest shape. -/
theorem append_shape (A B C : List Char) :
    A ++ [' '] ++ B ++ [' '] ++ C = A ++ ' ' :: (B ++ ' ' :: C) := by
  simp

/-- The character-list shape of the three-chunk fixture transcript. -/
theorem threeChunk_data :
    threeChunkTranscript.data
      = (('a' :: List.replicate 39997 'a') ++ ['.'])
        ++ ' ' :: ((('b' :: List.replicate 39997 'b') ++ ['.'])
        ++ ' ' :: (('c' :: List.replicate 39997 'c') ++ ['.'])) := by
  rw [show threeChunkTranscript.data
      = sentenceA.data ++ [' '] ++ sentenceB.data ++ [' '] ++ sentenceC.data by
    show (sentenceA ++ " " ++ sentenceB ++ " " ++ sentenceC).data = _
    rw [data_append, data_append, data_append, data_append, space_data]]
  rw [show sentenceA.data = 'a' :: List.replicate 39997 'a' ++ ['.'] from rfl]
  rw [show sentenceB.data = 'b' :: List.replicate 39997 'b' ++ ['.'] from rfl]
  rw [show sentenceC.data = 'c' :: List.replicate 39997 'c' ++ ['.'] from rfl]
  exact append_shape _ _ _

/-- The splitter cuts the three-chunk fixture into its three sentences. -/
theorem splitSentences_threeChunk :
    splitSentences threeChunkTranscript.data
      = [sentenceA.data, sentenceB.data, sentenceC.data] := by
  have hbodyA : ∀ x ∈ 'a' :: List.replicate 39997 'a', isPyWs x = false := by
    intro x hx
    rcases List.mem_cons.mp hx with rfl | hx
    · decide
    · rcases List.eq_of_mem_replicate hx with ⟨_, rfl⟩
      decide
  have hbodyB : ∀ x ∈ 'b' :: List.replicate 39997 'b', isPyWs x = false := by
    intro x hx
    rcases List.mem_cons.mp hx with rfl | hx
    · decide
    · rcases List.eq_of_mem_replicate hx with ⟨_, rfl⟩
      decide
  have hbodyC : ∀ x ∈ ('c' :: List.replicate 39997 'c') ++ ['.'], isPyWs x = false := by
    intro x hx
    rcases List.mem_append.mp hx with hx | hx
    · rcases List.mem_cons.mp hx with rfl | hx
      · decide
      · rcases List.eq_of_mem_replicate hx with ⟨_, rfl⟩
        decide
    · rcases List.mem_singleton.mp hx with rfl
      decide
  show splitSentencesGo false [] threeChunkTranscript.data = _
  rw [threeChunk_data]
  rw [splitGo_sentence_step ('a' :: List.replicate 39997 'a')
    ((('b' :: List.replicate 39997 'b') ++ ['.'])
      ++ ' ' :: (('c' :: List.replicate 39997 'c') ++ ['.'])) '.' ' '
    hbodyA (by decide) (by decide) (by decide) rfl]
  rw [splitGo_sentence_step ('b' :: List.replicate 39997 'b')
    (('c' :: List.replicate 39997 'c') ++ ['.']) '.' ' '
    hbodyB (by decide) (by decide) (by decide) rfl]
  rw [show splitSentencesGo false [] (('c' :: List.replicate 39997 'c') ++ ['.'])
      = [('c' :: List.replicate 39997 'c') ++ ['.']] from
    splitSentences_noWs _ hbodyC]
  exact rfl

/-- The chunk split of the three-chunk fixture: exactly the three sentences. -/
theorem splitChunks_threeChunk :
    splitTranscriptIntoChunks threeChunkTranscript 40000
      = [sentenceA, sentenceB, sentenceC] := by
  show (chunkLoop 40000 [] [] 0 (splitSentences threeChunkTranscript.data)).map List.asString
    = _
  rw [splitSentences_threeChunk]
  rw [chunkLoop_three 40000 sentenceA.data sentenceB.data sentenceC.data
    (by rw [sentenceA_len, sentenceB_len]; norm_num)
    (by rw [sentenceB_len, sentenceC_len]; norm_num)]
  simp [asString_data]

/-- Length of the three-sentence shape in terms of the body lengths. -/
theorem threeShape_length (R1 R2 R3 : List Char) :
    ((('a' :: R1) ++ ['.'])
        ++ ' ' :: ((('b' :: R2) ++ ['.'])
        ++ ' ' :: (('c' :: R3) ++ ['.']))).length
      = R1.length + R2.length + R3.length + 8 := by
  simp only [List.length_append, List.length_cons, List.length_nil]
  omega

/-- Closed witness for `chunk_failures_isolated`: the three-chunk fixture
with the oracle that fails exactly on chunk 2 (both models). -/
theorem chunk_failures_isolated_witness :
    summarizeChunks failOnB "detailed" (getPrompts "detailed")
        [sentenceA, sentenceB, sentenceC] 0
      = ["fine", "[Chunk 2 summary failed]", "fine"] ∧
    (∃ r, summarizeTranscript failOnB threeChunkTranscript "detailed" none = .ok r) ∧
    (∀ ef, finalCombine failOnB "detailed"
          (strJoin "\n\n" ["fine", "[Chunk 2 summary failed]", "fine"]) = .error ef →
      summarizeTranscript failOnB threeChunkTranscript "detailed" none = .ok
        { summary := strJoin "\n\n" ["fine", "[Chunk 2 summary failed]", "fine"]
          style := "detailed"
          word_count := wordCount (strJoin "\n\n" ["fine", "[Chunk 2 summary failed]", "fine"])
          sections := [("main", strJoin "\n\n" ["fine", "[Chunk 2 summary failed]", "fine"])]
          note := some "This is a concatenation of chunk summaries due to length constraints." }) := by
  have hlen : threeChunkTranscript.length = 119999 := by
    show threeChunkTranscript.data.length = 119999
    rw [threeChunk_data, threeShape_length, List.length_replicate,
      List.length_replicate, List.length_replicate]
  exact chunk_failures_isolated failOnB threeChunkTranscript "detailed"
    sentenceA sentenceB sentenceC fineResult fineResult
    "Summarization failed: boom" "Fallback summarization also failed: boom"
    (by intro h; rw [h] at hlen; simp at hlen)
    (by rw [hlen]; norm_num)
    splitChunks_threeChunk (by decide) (by decide) (by decide) (by decide)

/-! ## C7: chapter parser example -/

/-- **C7**: on the input
`"[00:01:30] Intro\nWelcome text.\n[00:05:00] Deep Dive\nMore text."` the
chapter parser returns exactly two chapters with timestamps `00:01:30` and
`00:05:00`, titles `Intro` and `Deep Dive`, and descriptions accumulated
from the non-matching lines after each timestamp line (each accumulated line
is appended with a trailing space). -/
theorem parse_chapters_example :
    parseChapters "[00:01:30] Intro\nWelcome text.\n[00:05:00] Deep Dive\nMore text."
      = [{ timestamp := "00:01:30", title := "Intro", description := "Welcome text. " },
         { timestamp := "00:05:00", title := "Deep Dive", description := "More text. " }] := by
  decide

/-! ## C4: chunked-transcription time offsets -/

theorem chunk_offset_eq (i : Nat) :
    ((i : ℚ) * (chunkLengthMs : ℚ)) / 1000 = 600 * (i : ℚ) := by
  rw [show ((chunkLengthMs : Nat) : ℚ) = 600000 by norm_num [chunkLengthMs]]
  field_simp
  ring

theorem transcribeChunkedLoop_segments :
    ∀ (results : List ChunkTranscript) (i : Nat),
      (transcribeChunkedLoop i results).2
        = ((results.enumFrom i).map (fun p =>
            p.2.segments.map (offsetSegment (600 * (p.1 : ℚ))))).flatten := by
  intro results
  induction results with
  | nil => intro i; rfl
  | cons r rest ih =>
    intro i
    show r.segments.map (offsetSegment (((i : ℚ) * (chunkLengthMs : ℚ)) / 1000))
        ++ (transcribeChunkedLoop (i + 1) rest).2 = _
    rw [chunk_offset_eq, ih (i + 1)]
    simp [List.enumFrom]

/-- **C4**: in chunked transcription reassembly, every time-segment reported
by chunk `i` (0-based) is appended with `i × 600` seconds added to both its
start and its end, in chunk order; in particular three 10-minute chunks each
reporting a segment at internal offset [0, 5] reassemble to segments
[0, 5], [600, 605], [1200, 1205]. -/
theorem chunked_segment_offsets :
    (∀ (results : List ChunkTranscript) (lang : Option String) (ms : Nat),
      (transcribeChunkedReassemble results lang ms).segments
        = ((results.enumFrom 0).map (fun p =>
            p.2.segments.map (offsetSegment (600 * (p.1 : ℚ))))).flatten) ∧
    (transcribeChunkedReassemble
        [{ text := "x", segments := [{ start := 0, stop := 5, text := "sx" }] },
         { text := "y", segments := [{ start := 0, stop := 5, text := "sy" }] },
         { text := "z", segments := [{ start := 0, stop := 5, text := "sz" }] }]
        none 1800000).segments
      = [{ start := 0, stop := 5, text := "sx" },
         { start := 600, stop := 605, text := "sy" },
         { start := 1200, stop := 1205, text := "sz" }] := by
  constructor
  · intro results lang ms
    exact transcribeChunkedLoop_segments results 0
  · show (transcribeChunkedLoop 0 _).2 = _
    rw [transcribeChunkedLoop_segments]
    simp only [List.enumFrom, List.map_cons, List.map_nil, List.flatten_cons,
      List.flatten_nil, offsetSegment, List.append_nil, List.cons_append,
      List.nil_append]
    norm_num

/-! ## C9: markdown rendering is deterministic -/

/-- **C9**: with the generation timestamp passed in as a fixed value, the
markdown builder is a pure function of its inputs, so rendering twice from
identical `SummaryResult`/`TranscriptResult` inputs (same title, source URL,
include-transcript flag, and chapters) produces byte-identical output. -/
theorem markdown_deterministic (videoTitle : String) (summaryData : SummaryResult)
    (transcriptData : TranscriptResult) (videoUrl : Option String)
    (includeTranscript : Bool) (chapters : Option (List Chapter)) (now : String) :
    buildMarkdownContent videoTitle summaryData transcriptData videoUrl
        includeTranscript chapters now
      = buildMarkdownContent videoTitle summaryData transcriptData videoUrl
        includeTranscript chapters now := rfl

/-! ## C5: section parser on a three-paragraph summary -/

theorem pySplitChar_no_sep (sep : Char) :
    ∀ l : List Char, (∀ c ∈ l, c ≠ sep) → pySplitChar sep l = [l] := by
  intro l
  induction l with
  | nil => intro _; rfl
  | cons c cs ih =>
    intro h
    have hc : c ≠ sep := h c (List.mem_cons_self c cs)
    have htail := ih (fun x hx => h x (List.mem_cons_of_mem c hx))
    simp [pySplitChar, hc, htail]

theorem pySplitChar_append (sep : Char) :
    ∀ (x y : List Char), (∀ c ∈ x, c ≠ sep) →
      pySplitChar sep (x ++ sep :: y) = x :: pySplitChar sep y := by
  intro x
  induction x with
  | nil =>
    intro y _
    simp [pySplitChar]
  | cons c cs ih =>
    intro y h
    have hc : c ≠ sep := h c (List.mem_cons_self c cs)
    have htail := ih y (fun x hx => h x (List.mem_cons_of_mem c hx))
    simp [pySplitChar, hc, htail]

/-- **C5**: for a three-paragraph summary whose paragraphs are introduced by
the header lines `Overview`, `Key Points` and `Conclusion` — each paragraph
a single newline-free content line that is non-blank after stripping and is
not itself classified as a header — `parse_sections` returns exactly the
mapping {overview, key_points, conclusion}, each bound to the stripped
content of the paragraph under its header; the header lines are consumed as
delimiters and appear in no section's content. -/
theorem parse_sections_three (a b c : List Char)
    (han : ∀ x ∈ a, x ≠ '\n') (hbn : ∀ x ∈ b, x ≠ '\n') (hcn : ∀ x ∈ c, x ≠ '\n')
    (has : pyStrip a ≠ []) (hbs : pyStrip b ≠ []) (hcs : pyStrip c ≠ [])
    (hac : classifyLine (pyStrip a) = none) (hbc : classifyLine (pyStrip b) = none)
    (hcc : classifyLine (pyStrip c) = none) :
    parseSectionsL ("Overview".data ++ '\n' :: (a ++ '\n' :: ("Key Points".data
        ++ '\n' :: (b ++ '\n' :: ("Conclusion".data ++ '\n' :: c)))))
      = [("overview", pyStrip a), ("key_points", pyStrip b),
         ("conclusion", pyStrip c)] := by
  have hov : ∀ x ∈ "Overview".data, x ≠ '\n' := by decide
  have hkp : ∀ x ∈ "Key Points".data, x ≠ '\n' := by decide
  have hco : ∀ x ∈ "Conclusion".data, x ≠ '\n' := by decide
  have hlines : pySplitChar '\n' ("Overview".data ++ '\n' :: (a ++ '\n'
        :: ("Key Points".data ++ '\n' :: (b ++ '\n' :: ("Conclusion".data
        ++ '\n' :: c)))))
      = ["Overview".data, a, "Key Points".data, b, "Conclusion".data, c] := by
    rw [pySplitChar_append '\n' _ _ hov, pySplitChar_append '\n' _ _ han,
      pySplitChar_append '\n' _ _ hkp, pySplitChar_append '\n' _ _ hbn,
      pySplitChar_append '\n' _ _ hco, pySplitChar_no_sep '\n' _ hcn]
  have e1 : sectionsStep ([], "overview", []) "Overview".data
      = ([], "overview", []) := by decide
  have e2 : sectionsStep ([], "overview", []) a = ([], "overview", [pyStrip a]) := by
    simp [sectionsStep, has, hac]
  have e3 : sectionsStep ([], "overview", [pyStrip a]) "Key Points".data
      = ([("overview", pyStrip a)], "key_points", []) := by
    have h1 : pyStrip "Key Points".data = "Key Points".data := by decide
    have h2 : classifyLine "Key Points".data = some "key_points" := by decide
    simp [sectionsStep, h1, h2, dictSet, joinSep]
  have e4 : sectionsStep ([("overview", pyStrip a)], "key_points", []) b
      = ([("overview", pyStrip a)], "key_points", [pyStrip b]) := by
    simp [sectionsStep, hbs, hbc]
  have e5 : sectionsStep ([("overview", pyStrip a)], "key_points", [pyStrip b])
        "Conclusion".data
      = ([("overview", pyStrip a), ("key_points", pyStrip b)], "conclusion", []) := by
    have h1 : pyStrip "Conclusion".data = "Conclusion".data := by decide
    have h2 : classifyLine "Conclusion".data = some "conclusion" := by decide
    simp [sectionsStep, h1, h2, dictSet, joinSep]
  have e6 : sectionsStep ([("overview", pyStrip a), ("key_points", pyStrip b)],
        "conclusion", []) c
      = ([("overview", pyStrip a), ("key_points", pyStrip b)], "conclusion",
         [pyStrip c]) := by
    simp [sectionsStep, hcs, hcc]
  unfold parseSectionsL
  rw [hlines]
  simp only [List.foldl_cons, List.foldl_nil, e1, e2, e3, e4, e5, e6]
  simp [dictSet, joinSep]

/-- Closed witness for `parse_sections_three`. -/
theorem parse_sections_three_witness :
    parseSectionsL ("Overview".data ++ '\n' :: ("Alpha text.".data ++ '\n'
        :: ("Key Points".data ++ '\n' :: ("Beta text.".data ++ '\n'
        :: ("Conclusion".data ++ '\n' :: "Gamma text.".data)))))
      = [("overview", pyStrip "Alpha text.".data),
         ("key_points", pyStrip "Beta text.".data),
         ("conclusion", pyStrip "Gamma text.".data)] :=
  parse_sections_three "Alpha text.".data "Beta text.".data "Gamma text.".data
    (by decide) (by decide) (by decide) (by decide) (by decide) (by decide)
    (by decide) (by decide) (by decide)

/-! ## C10: chapter timestamps are always H:MM:SS or HH:MM:SS -/

theorem matchTail_some (t p r : List Char) (h : matchTail t = some (p, r)) :
    ∃ m1 m2 s1 s2, p = [m1, m2, ':', s1, s2] ∧ isDigit m1 = true ∧
      isDigit m2 = true ∧ isDigit s1 = true ∧ isDigit s2 = true := by
  unfold matchTail at h
  split at h
  · rename_i m1 m2 s1 s2 rest
    split at h
    · rename_i hcond
      simp only [Bool.and_eq_true] at hcond
      obtain ⟨⟨⟨⟨hd1, hd2⟩, hd3⟩, hd4⟩, _⟩ := hcond
      cases h
      exact ⟨m1, m2, s1, s2, rfl, hd1, hd2, hd3, hd4⟩
    · cases h
  · cases h

theorem matchTimestampLine_wf (l ts r : List Char)
    (h : matchTimestampLine l = some (ts, r)) : wfTimestampL ts = true := by
  unfold matchTimestampLine at h
  split at h
  · rename_i res heq
    cases h
    unfold matchTwoDigit at heq
    split at heq
    · split at heq
      · rename_i hdig
        simp only [Bool.and_eq_true] at hdig
        rcases Option.map_eq_some'.mp heq with ⟨⟨p, rr⟩, hmt, hpr⟩
        obtain ⟨m1, m2, s1, s2, hp, h1, h2, h3, h4⟩ := matchTail_some _ p rr hmt
        cases hpr
        subst hp
        simp [wfTimestampL, hdig.1, hdig.2, h1, h2, h3, h4]
      · cases heq
    · cases heq
  · unfold matchOneDigit at h
    split at h
    · split at h
      · rename_i hdig
        rcases Option.map_eq_some'.mp h with ⟨⟨p, rr⟩, hmt, hpr⟩
        obtain ⟨m1, m2, s1, s2, hp, h1, h2, h3, h4⟩ := matchTail_some _ p rr hmt
        cases hpr
        subst hp
        simp [wfTimestampL, hdig, h1, h2, h3, h4]
      · cases h
    · cases h

theorem digit_ne_colon (d : Char) (h : isDigit d = true) : d ≠ ':' := by
  intro hd
  subst hd
  exact absurd h (by decide)

/-- A bracketed `MM:SS` prefix (two colon-separated two-digit fields) never
matches the chapter regex, whatever follows the closing bracket. -/
theorem matchTimestampLine_mmss (m1 m2 s1 s2 : Char) (rest : List Char)
    (_h1 : isDigit m1 = true) (h2 : isDigit m2 = true)
    (_h3 : isDigit s1 = true) (_h4 : isDigit s2 = true) :
    matchTimestampLine ('[' :: m1 :: m2 :: ':' :: s1 :: s2 :: ']' :: rest) = none := by
  have hmt : matchTail (s1 :: s2 :: ']' :: rest) = none := by
    unfold matchTail
    split
    · rename_i heq
      injection heq with _ heq
      injection heq with _ heq
      injection heq with hcolon _
      exact absurd hcolon (by decide)
    · rfl
  have htwo : matchTwoDigit ('[' :: m1 :: m2 :: ':' :: s1 :: s2 :: ']' :: rest)
      = none := by
    unfold matchTwoDigit
    simp [hmt]
  have hone : matchOneDigit ('[' :: m1 :: m2 :: ':' :: s1 :: s2 :: ']' :: rest)
      = none := by
    unfold matchOneDigit
    split
    · rename_i heq
      injection heq with _ heq
      injection heq with _ heq
      injection heq with hcolon _
      exact absurd hcolon (digit_ne_colon m2 h2)
    · rfl
  unfold matchTimestampLine
  rw [htwo, hone]

/-- Unfolding of `chapterStep` with its `let` binding expanded (definitional). -/
theorem chapterStep_eq (st : List Chapter × Option Chapter) (l : List Char) :
    chapterStep st l
      = if pyStrip l = [] then st
        else
          match matchTimestampLine (pyStrip l) with
          | some (ts, rest) =>
            ((match st.2 with
              | some c => st.1 ++ [c]
              | none => st.1),
             some { timestamp := ts.asString, title := (pyStrip rest).asString
                    description := "" })
          | none =>
            match st.2 with
            | some c =>
              (st.1, some { c with
                description := c.description ++ (pyStrip l).asString ++ " " })
            | none => st := rfl

theorem chapterStep_inv (st : List Chapter × Option Chapter) (l : List Char)
    (h1 : ∀ ch ∈ st.1, wfTimestamp ch.timestamp = true)
    (h2 : ∀ ch, st.2 = some ch → wfTimestamp ch.timestamp = true) :
    (∀ ch ∈ (chapterStep st l).1, wfTimestamp ch.timestamp = true) ∧
    (∀ ch, (chapterStep st l).2 = some ch → wfTimestamp ch.timestamp = true) := by
  obtain ⟨chs, op⟩ := st
  rw [chapterStep_eq]
  by_cases hl : pyStrip l = []
  · rw [if_pos hl]
    exact ⟨h1, h2⟩
  · rw [if_neg hl]
    rcases hm : matchTimestampLine (pyStrip l) with _ | ⟨ts, rest⟩
    · rcases op with _ | c
      · exact ⟨h1, h2⟩
      · constructor
        · intro ch hch
          exact h1 ch hch
        · intro ch hch
          cases hch
          exact h2 c rfl
    · constructor
      · intro ch hch
        rcases op with _ | c
        · exact h1 ch hch
        · rcases List.mem_append.mp hch with hin | hin
          · exact h1 ch hin
          · have hwf : wfTimestamp c.timestamp = true := h2 c rfl
            rwa [List.mem_singleton.mp hin]
      · intro ch hch
        cases hch
        show wfTimestampL (List.asString ts).data = true
        exact matchTimestampLine_wf _ ts rest hm

theorem chapterFold_inv (lines : List (List Char)) :
    ∀ st : List Chapter × Option Chapter,
      (∀ ch ∈ st.1, wfTimestamp ch.timestamp = true) →
      (∀ ch, st.2 = some ch → wfTimestamp ch.timestamp = true) →
      (∀ ch ∈ (lines.foldl chapterStep st).1, wfTimestamp ch.timestamp = true) ∧
      (∀ ch, (lines.foldl chapterStep st).2 = some ch →
        wfTimestamp ch.timestamp = true) := by
  induction lines with
  | nil => intro st h1 h2; exact ⟨h1, h2⟩
  | cons l ls ih =>
    intro st h1 h2
    have hstep := chapterStep_inv st l h1 h2
    exact ih (chapterStep st l) hstep.1 hstep.2

/-- **C10**: every chapter emitted by the chapter parser has a timestamp of
the shape `\d{1,2}:\d{2}:\d{2}` (H:MM:SS or HH:MM:SS); and a line whose
stripped form has a bracketed `MM:SS` prefix never opens a chapter — the
parser state keeps its emitted chapters, and the line is appended (with a
trailing space) to the open chapter's description when one is open, or
discarded otherwise. -/
theorem chapter_timestamps_wf :
    (∀ text : String, ∀ ch ∈ parseChapters text, wfTimestamp ch.timestamp = true) ∧
    (∀ (l : List Char) (m1 m2 s1 s2 : Char) (rest : List Char)
        (st : List Chapter × Option Chapter),
      isDigit m1 = true → isDigit m2 = true → isDigit s1 = true → isDigit s2 = true →
      pyStrip l = '[' :: m1 :: m2 :: ':' :: s1 :: s2 :: ']' :: rest →
      chapterStep st l
        = (st.1, st.2.map (fun ch =>
            { ch with description :=
                ch.description ++ (pyStrip l).asString ++ " " }))) := by
  constructor
  · intro text ch hch
    unfold parseChapters parseChaptersL at hch
    dsimp only at hch
    have hinv := chapterFold_inv (pySplitChar '\n' text.data) ([], none)
      (by intro x hx; simp at hx) (by intro x hx; simp at hx)
    rcases hst : (List.foldl chapterStep ([], none) (pySplitChar '\n' text.data)).2 with
      _ | c
    · rw [hst] at hch
      exact hinv.1 ch hch
    · rw [hst] at hch
      rcases List.mem_append.mp hch with hin | hin
      · exact hinv.1 ch hin
      · have hwf : wfTimestamp c.timestamp = true := hinv.2 c hst
        rwa [List.mem_singleton.mp hin]
  · intro l m1 m2 s1 s2 rest st hm1 hm2 hs1 hs2 hstrip
    obtain ⟨chs, op⟩ := st
    rw [chapterStep_eq, hstrip]
    rw [if_neg (by simp)]
    rw [matchTimestampLine_mmss m1 m2 s1 s2 rest hm1 hm2 hs1 hs2]
    rcases op with _ | c
    · rfl
    · rfl

/-- Closed witness for `chapter_timestamps_wf`. -/
theorem chapter_timestamps_wf_witness :
    wfTimestamp ({ timestamp := "00:01:30", title := "Hi", description := "" }
        : Chapter).timestamp = true ∧
    chapterStep ([], some { timestamp := "00:01:30", title := "Hi", description := "" })
        "[05:30] x".data
      = ([], some { timestamp := "00:01:30", title := "Hi"
                    description := "[05:30] x " }) := by
  constructor
  · exact chapter_timestamps_wf.1 "[00:01:30] Hi"
      { timestamp := "00:01:30", title := "Hi", description := "" } (by decide)
  · have h := chapter_timestamps_wf.2 "[05:30] x".data '0' '5' '3' '0' " x".data
      ([], some { timestamp := "00:01:30", title := "Hi", description := "" })
      (by decide) (by decide) (by decide) (by decide) (by decide)
    rw [h]
    decide

/-! ## Closed instantiations of the remaining parameterized theorems -/

/-- Closed witness for `chunk_split_reconstruction` at the input
`"a. b."` with bound 4. -/
theorem chunk_split_reconstruction_witness :
    ∃ (seps : List (List Char)) (groups : List (List (List Char))),
      (splitSentences ("a. b." : String).data).length = seps.length + 1 ∧
      (∀ p ∈ seps, p ≠ [] ∧ ∀ c ∈ p, isPyWs c = true) ∧
      interleave (splitSentences ("a. b." : String).data) seps
        = ("a. b." : String).data ∧
      groups.flatten = splitSentences ("a. b." : String).data ∧
      splitTranscriptIntoChunks "a. b." 4
        = (groups.map (joinSep [' '])).map List.asString ∧
      (∀ g ∈ groups, g ≠ [] ∧ (sumLen g ≤ 4 ∨ g.length = 1)) ∧
      joinSep [' '] ((splitTranscriptIntoChunks "a. b." 4).map String.data)
        = joinSep [' '] (splitSentences ("a. b." : String).data) :=
  chunk_split_reconstruction "a. b." 4

/-- Closed witness for `split_empty` at the bound 5. -/
theorem split_empty_witness : splitTranscriptIntoChunks "" 5 = [""] :=
  split_empty 5

/-- Closed witness for the universal part of `chunked_segment_offsets`. -/
theorem chunked_segment_offsets_witness :
    (transcribeChunkedReassemble
        [{ text := "x", segments := [{ start := 3, stop := 7, text := "s" }] }]
        (some "en") 600000).segments
      = ((([{ text := "x",
              segments := [{ start := 3, stop := 7, text := "s" }] }]
          : List ChunkTranscript).enumFrom 0).map (fun p =>
            p.2.segments.map (offsetSegment (600 * (p.1 : ℚ))))).flatten :=
  chunked_segment_offsets.1
    [{ text := "x", segments := [{ start := 3, stop := 7, text := "s" }] }]
    (some "en") 600000

/-- Closed witness for `markdown_deterministic` at concrete inputs. -/
theorem markdown_deterministic_witness :
    buildMarkdownContent "Title"
        { summary := "s", style := "simple", word_count := 1,
          sections := [("main", "s")] }
        { text := "t", segments := [], language := none, duration := none }
        none false none "2024-01-01 00:00:00"
      = buildMarkdownContent "Title"
        { summary := "s", style := "simple", word_count := 1,
          sections := [("main", "s")] }
        { text := "t", segments := [], language := none, duration := none }
        none false none "2024-01-01 00:00:00" :=
  markdown_deterministic "Title"
    { summary := "s", style := "simple", word_count := 1,
      sections := [("main", "s")] }
    { text := "t", segments := [], language := none, duration := none }
    none false none "2024-01-01 00:00:00"
